import Mathlib

/-!
Shallow embedding of the Google Keep clone gRPC service (`src/index.js`):
the in-memory collections (users, notes, tags, token blacklist), the JWT
verification/revocation helpers, and the auth/note/tag/user service handlers.

Conventions of the embedding:
* JavaScript `===` on strings is Lean equality on `String`.
* ISO timestamp strings are modelled as `Nat` instants (comparison of ISO-8601
  strings agrees with comparison of the instants they denote).
* A JWT token string is modelled as a `Token`: the (external) `jsonwebtoken`
  library's view of it — `decoded` is what `jwt.decode` yields (`none` for a
  malformed string) and `sigOk` records whether its signature verifies under
  the process secret.  Equality of `Token` models string equality of tokens.
* `bcrypt` is the external hashing collaborator, modelled as a `Hasher`
  record of its two operations; its callback error paths (resource
  exhaustion) are outside the model, so the operations are total.
* The mutable module-level arrays of `index.js` are passed and returned
  explicitly; `saveData` (disk persistence) has no in-memory effect and is
  elided.
-/

namespace KeepClone

/-- A stored user record (`users` array element): id, username, bcrypt-hashed
password. -/
structure User where
  id : String
  username : String
  password : String
deriving DecidableEq

/-- The password-less user view returned by auth/user handlers
(`{ id, username }`) — by construction it has no password field. -/
structure UserOut where
  id : String
  username : String
deriving DecidableEq

/-- A note record as created by `createNote`. -/
structure Note where
  id : String
  title : String
  content : String
  tagIds : List String
  userId : String
  createdAt : Nat
  updatedAt : Nat
  archived : Bool
  color : String
deriving DecidableEq

/-- A tag record as created by `createTag`. -/
structure Tag where
  id : String
  name : String
  userId : String
  createdAt : Nat
  updatedAt : Nat
deriving DecidableEq

/-- The payload `jwt.decode` extracts from a token:
`{ id, username, exp }` (`exp` is absent on a token signed without
`expiresIn`). -/
structure TokenPayload where
  userId : String
  username : String
  exp : Option Nat
deriving DecidableEq

/-- A bearer-token string as seen through the `jsonwebtoken` library:
`decoded` is the result of `jwt.decode` (none for a malformed string) and
`sigOk` says whether the signature verifies under `process.env.SECRET_KEY`. -/
structure Token where
  decoded : Option TokenPayload
  sigOk : Bool
deriving DecidableEq

/-- An entry of the `tokenBlacklist` array: `{ token, expiresAt }`. -/
structure BlacklistEntry where
  token : Token
  expiresAt : Nat
deriving DecidableEq

/-- Result of `verifyToken`: `{ valid: true, user }` or
`{ valid: false, message }`. -/
inductive VerifyResult where
  | valid (user : TokenPayload)
  | invalid (message : String)
deriving DecidableEq

/-- Generic `{ success, message }` response (`StatusResponse`). -/
structure StatusResponse where
  success : Bool
  message : String
deriving DecidableEq

/-- The external `bcrypt` collaborator: `hash` and `compare`. -/
structure Hasher where
  hash : String → String
  compare : String → String → Bool

/-- `jwt.verify(token, SECRET_KEY)` at instant `now`: yields the payload when
the string decodes, the signature matches the process secret, and the `exp`
claim (when present) has not passed; otherwise it throws, modelled as
`none`. -/
def jwtVerify (t : Token) (now : Nat) : Option TokenPayload :=
  match t.decoded with
  | none => none
  | some p =>
    if t.sigOk then
      match p.exp with
      | none => some p
      | some e => if now < e then some p else none
    else none

/-- `verifyToken` from `src/index.js`: first tests blacklist membership
(`tokenBlacklist.some(item => item.token === token)`), answering the revoked
message on a hit; only then runs `jwt.verify`, any failure of which is caught
and reported as the generic invalid message. -/
def verifyToken (tokenBlacklist : List BlacklistEntry) (t : Token) (now : Nat) :
    VerifyResult :=
  if tokenBlacklist.any (fun item => decide (item.token = t)) then
    .invalid "Token has been revoked"
  else
    match jwtVerify t now with
    | some p => .valid p
    | none => .invalid "Invalid token"

/-- `cleanBlacklist` from `src/index.js`: keeps exactly the entries whose
`expiresAt` lies strictly in the future
(`new Date(item.expiresAt) > now`). -/
def cleanBlacklist (tokenBlacklist : List BlacklistEntry) (now : Nat) :
    List BlacklistEntry :=
  tokenBlacklist.filter (fun item => decide (now < item.expiresAt))

/-- `authService.logout`: `jwt.decode`s the token without verifying the
signature; fails when there is no decoded payload or its `exp` is falsy
(absent, or the JavaScript-falsy value `0`); otherwise appends
`{ token, expiresAt }` to the blacklist. -/
def logout (tokenBlacklist : List BlacklistEntry) (t : Token) :
    List BlacklistEntry × StatusResponse :=
  match t.decoded with
  | none => (tokenBlacklist, ⟨false, "Invalid token"⟩)
  | some p =>
    match p.exp with
    | none => (tokenBlacklist, ⟨false, "Invalid token"⟩)
    | some e =>
      if e = 0 then (tokenBlacklist, ⟨false, "Invalid token"⟩)
      else (tokenBlacklist ++ [⟨t, e⟩], ⟨true, "Logout successful"⟩)

/-- Response of register/login: `{ success, message, user? }`; the issued JWT
string (opaque to the core) is elided. -/
structure AuthResponse where
  success : Bool
  message : String
  user : Option UserOut
deriving DecidableEq

/-- `authService.register`: rejects when some stored user already has exactly
this username (`users.some(user => user.username === username)`); otherwise
hashes the password, appends `{ id: uuidv4(), username, password: hash }`
(the fresh uuid is passed in as `freshId`) and answers with the password-less
user view. -/
def register (users : List User) (h : Hasher) (freshId username password : String) :
    List User × AuthResponse :=
  if users.any (fun user => decide (user.username = username)) then
    (users, ⟨false, "Username already exists", none⟩)
  else
    let newUser : User := ⟨freshId, username, h.hash password⟩
    (users ++ [newUser], ⟨true, "User registered successfully", some ⟨freshId, username⟩⟩)

/-- `authService.login`: finds the first user with this username
(`users.find`); answers the single invalid-credentials message both when no
user matches and when `bcrypt.compare` rejects the password. -/
def login (users : List User) (h : Hasher) (username password : String) :
    AuthResponse :=
  match users.find? (fun user => decide (user.username = username)) with
  | none => ⟨false, "Invalid username or password", none⟩
  | some user =>
    if h.compare password user.password then
      ⟨true, "Login successful", some ⟨user.id, user.username⟩⟩
    else
      ⟨false, "Invalid username or password", none⟩

/-- JavaScript `a || b` on strings: the empty string is falsy, and an absent
(`undefined`) value falls through to the default. -/
def jsOrStr (a : Option String) (b : String) : String :=
  match a with
  | some s => if s = "" then b else s
  | none => b

/-- Removal at `findIndex` + `splice(i, 1)`: `none` when no element satisfies
`p` (findIndex yields -1), otherwise the list without its first
`p`-satisfying element. -/
def removeFirst (p : α → Bool) : List α → Option (List α)
  | [] => none
  | x :: xs =>
    if p x then some xs
    else
      match removeFirst p xs with
      | none => none
      | some ys => some (x :: ys)

/-- Replacement at `findIndex`: `none` when no element satisfies `p`,
otherwise the rewritten element together with the list in which the first
`p`-satisfying element was rewritten by `f`. -/
def updateFirst (p : α → Bool) (f : α → α) : List α → Option (α × List α)
  | [] => none
  | x :: xs =>
    if p x then some (f x, f x :: xs)
    else
      match updateFirst p f xs with
      | none => none
      | some (y, ys) => some (y, x :: ys)

/-- `GetNotesRequest` of `proto/keep.proto`: `userId`, `archived`, `tagId` —
the message has no token field.  `archived` is `none` when the caller leaves
it `undefined`; `tagId = ""` is JavaScript-falsy and means unfiltered. -/
structure GetNotesRequest where
  userId : String
  archived : Option Bool
  tagId : String
deriving DecidableEq

/-- Response carrying a list of notes. -/
structure NotesResponse where
  success : Bool
  message : String
  notes : List Note
deriving DecidableEq

/-- Response carrying at most one note. -/
structure NoteResponse where
  success : Bool
  message : String
  note : Option Note
deriving DecidableEq

/-- `noteService.getNotes`: filters the caller's notes by `userId`, then by
`archived` when supplied, then by `tagId` membership when truthy; always
answers success.  No token is consulted. -/
def getNotes (notes : List Note) (req : GetNotesRequest) : NotesResponse :=
  let f1 := notes.filter (fun note => decide (note.userId = req.userId))
  let f2 :=
    match req.archived with
    | none => f1
    | some a => f1.filter (fun note => note.archived = a)
  let f3 :=
    if req.tagId = "" then f2
    else f2.filter (fun note => note.tagIds.any (fun x => decide (x = req.tagId)))
  ⟨true, "Notes retrieved successfully", f3⟩

/-- `noteService.getNote`: owner-scoped lookup
(`note.id === id && note.userId === userId`). -/
def getNote (notes : List Note) (id userId : String) : NoteResponse :=
  match notes.find? (fun note => decide (note.id = id ∧ note.userId = userId)) with
  | none => ⟨false, "Note not found", none⟩
  | some note => ⟨true, "Note retrieved successfully", some note⟩

/-- `CreateNoteRequest`: optional title/content/tagIds/color around the
mandatory `userId`. -/
structure CreateNoteRequest where
  title : Option String
  content : Option String
  tagIds : Option (List String)
  userId : String
  color : Option String
deriving DecidableEq

/-- `noteService.createNote`: builds
`{ id: uuidv4(), title: title || '', content: content || '',
tagIds: tagIds || [], userId, createdAt: now, updatedAt: now,
archived: false, color: color || '#ffffff' }`, appends it and answers
success; the supplied `userId` is stored without any lookup in `users`. -/
def createNote (notes : List Note) (req : CreateNoteRequest)
    (freshId : String) (now : Nat) : List Note × NoteResponse :=
  let newNote : Note :=
    { id := freshId
      title := jsOrStr req.title ""
      content := jsOrStr req.content ""
      tagIds := req.tagIds.getD []
      userId := req.userId
      createdAt := now
      updatedAt := now
      archived := false
      color := jsOrStr req.color "#ffffff" }
  (notes ++ [newNote], ⟨true, "Note created successfully", some newNote⟩)

/-- `UpdateNoteRequest`: the note/owner keys plus one `Option` per updatable
field (`none` models the JavaScript `undefined` the handler tests with
`!== undefined`). -/
structure UpdateNoteRequest where
  id : String
  title : Option String
  content : Option String
  tagIds : Option (List String)
  userId : String
  archived : Option Bool
  color : Option String
deriving DecidableEq

/-- The object spread of `noteService.updateNote`: each supplied field takes
the request's value, each unsupplied one keeps the stored value, `updatedAt`
becomes `now`; `id`, `userId`, `createdAt` ride along unchanged. -/
def applyNoteUpdate (req : UpdateNoteRequest) (now : Nat) (note : Note) : Note :=
  { note with
    title := req.title.getD note.title
    content := req.content.getD note.content
    tagIds := req.tagIds.getD note.tagIds
    archived := req.archived.getD note.archived
    color := req.color.getD note.color
    updatedAt := now }

/-- `noteService.updateNote`: owner-scoped `findIndex`; not-found when absent,
otherwise replaces the note with the spread-merge and returns it. -/
def updateNote (notes : List Note) (req : UpdateNoteRequest) (now : Nat) :
    List Note × NoteResponse :=
  match updateFirst (fun note => decide (note.id = req.id ∧ note.userId = req.userId))
      (applyNoteUpdate req now) notes with
  | none => (notes, ⟨false, "Note not found", none⟩)
  | some (updatedNote, notes') =>
    (notes', ⟨true, "Note updated successfully", some updatedNote⟩)

/-- `noteService.deleteNote`: owner-scoped `findIndex` + `splice`. -/
def deleteNote (notes : List Note) (id userId : String) :
    List Note × StatusResponse :=
  match removeFirst (fun note => decide (note.id = id ∧ note.userId = userId)) notes with
  | none => (notes, ⟨false, "Note not found"⟩)
  | some notes' => (notes', ⟨true, "Note deleted successfully"⟩)

/-- Response carrying a list of tags. -/
structure TagsResponse where
  success : Bool
  message : String
  tags : List Tag
deriving DecidableEq

/-- Response carrying at most one tag. -/
structure TagResponse where
  success : Bool
  message : String
  tag : Option Tag
deriving DecidableEq

/-- `tagService.getTags`: filters tags by `userId`; always success. -/
def getTags (tags : List Tag) (userId : String) : TagsResponse :=
  ⟨true, "Tags retrieved successfully",
    tags.filter (fun tag => decide (tag.userId = userId))⟩

/-- `tagService.getTag`: owner-scoped lookup
(`tag.id === id && tag.userId === userId`). -/
def getTag (tags : List Tag) (id userId : String) : TagResponse :=
  match tags.find? (fun tag => decide (tag.id = id ∧ tag.userId = userId)) with
  | none => ⟨false, "Tag not found", none⟩
  | some tag => ⟨true, "Tag retrieved successfully", some tag⟩

/-- `tagService.createTag`: appends
`{ id: uuidv4(), name, userId, createdAt: now, updatedAt: now }`; the
supplied `userId` is stored without any lookup in `users`. -/
def createTag (tags : List Tag) (name userId : String)
    (freshId : String) (now : Nat) : List Tag × TagResponse :=
  let newTag : Tag := ⟨freshId, name, userId, now, now⟩
  (tags ++ [newTag], ⟨true, "Tag created successfully", some newTag⟩)

/-- `tagService.updateTag`: owner-scoped `findIndex`; not-found when absent,
otherwise spread-merges the tag, replacing `name` when it was supplied
(`name !== undefined`) and refreshing `updatedAt`. -/
def updateTag (tags : List Tag) (id : String) (name : Option String)
    (userId : String) (now : Nat) : List Tag × TagResponse :=
  match updateFirst (fun tag => decide (tag.id = id ∧ tag.userId = userId))
      (fun tag => { tag with name := name.getD tag.name, updatedAt := now }) tags with
  | none => (tags, ⟨false, "Tag not found", none⟩)
  | some (updatedTag, tags') => (tags', ⟨true, "Tag updated successfully", some updatedTag⟩)

/-- The per-note body of `deleteTag`'s `notes.forEach`: when `tagIds`
contains the deleted id, rewrite `tagIds` without it; otherwise leave the
note alone.  Note the loop ranges over ALL notes — there is no owner
check. -/
def stripTag (id : String) (note : Note) : Note :=
  if note.tagIds.any (fun tagId => decide (tagId = id)) then
    { note with tagIds := note.tagIds.filter (fun tagId => decide (tagId ≠ id)) }
  else note

/-- `tagService.deleteTag`: owner-scoped `findIndex` + `splice` on `tags`,
then strips the id from every note of every owner (`notes.forEach`). -/
def deleteTag (tags : List Tag) (notes : List Note) (id userId : String) :
    List Tag × List Note × StatusResponse :=
  match removeFirst (fun tag => decide (tag.id = id ∧ tag.userId = userId)) tags with
  | none => (tags, notes, ⟨false, "Tag not found"⟩)
  | some tags' => (tags', notes.map (stripTag id), ⟨true, "Tag deleted successfully"⟩)

/-- Response carrying at most one password-less user view. -/
structure UserResponse where
  success : Bool
  message : String
  user : Option UserOut
deriving DecidableEq

/-- `userService.getUser`: lookup by id (not owner-scoped); strips the
password from the answer. -/
def getUser (users : List User) (id : String) : UserResponse :=
  match users.find? (fun user => decide (user.id = id)) with
  | none => ⟨false, "User not found", none⟩
  | some user => ⟨true, "User retrieved successfully", some ⟨user.id, user.username⟩⟩

/-- JavaScript truthiness of an optional string (`if (username)`): an absent
(`undefined`) value and the empty string are falsy. -/
def jsTruthy (a : Option String) : Bool :=
  match a with
  | some s => decide (s ≠ "")
  | none => false

/-- The update block of `userService.updateUser`: copies the stored record,
overwrites `username` when the request's username is truthy, and overwrites
`password` with the bcrypt hash when the request's password is truthy (the
hash's resource-failure callback path is external, so hashing is total
here). -/
def applyUserUpdate (h : Hasher) (username password : Option String)
    (user : User) : User :=
  let u1 :=
    match username with
    | some s => if s = "" then user else { user with username := s }
    | none => user
  match password with
  | some s => if s = "" then u1 else { u1 with password := h.hash s }
  | none => u1

/-- `userService.updateUser`: `findIndex` by id (not-found when absent); when
the requested username is truthy, differs from the stored one and collides
with ANY stored user's username, fails with the duplicate message; otherwise
replaces the first matching record with the updated copy and answers the
password-less view.  The first match is located with `find?` for the
collision check and rewritten by `updateFirst` under the same predicate, so
the two traversals visit the same record and the second `none` branch is
unreachable. -/
def updateUser (users : List User) (h : Hasher) (id : String)
    (username password : Option String) : List User × UserResponse :=
  match users.find? (fun user => decide (user.id = id)) with
  | none => (users, ⟨false, "User not found", none⟩)
  | some old =>
    if jsTruthy username && !(decide (username.getD "" = old.username))
        && users.any (fun user => decide (user.username = username.getD "")) then
      (users, ⟨false, "Username already exists", none⟩)
    else
      match updateFirst (fun user => decide (user.id = id))
          (applyUserUpdate h username password) users with
      | none => (users, ⟨false, "User not found", none⟩)
      | some (updatedUser, users') =>
        (users', ⟨true, "User updated successfully",
          some ⟨updatedUser.id, updatedUser.username⟩⟩)

/-- The four module-level collections of `src/index.js`. -/
structure ServerState where
  users : List User
  notes : List Note
  tags : List Tag
  tokenBlacklist : List BlacklistEntry
deriving DecidableEq

/-- The first statement of `userService.deleteUser`:
`users.splice(userIndex, 1)` — the User record is removed before anything
else; `none` when no user has the id. -/
def removeUserRecord (s : ServerState) (id : String) : Option ServerState :=
  match removeFirst (fun user => decide (user.id = id)) s.users with
  | none => none
  | some users' => some { s with users := users' }

/-- The second statement: `notes = notes.filter(note => note.userId !== id)`. -/
def removeOwnedNotes (s : ServerState) (id : String) : ServerState :=
  { s with notes := s.notes.filter (fun note => decide (note.userId ≠ id)) }

/-- The third statement: `tags = tags.filter(tag => tag.userId !== id)`. -/
def removeOwnedTags (s : ServerState) (id : String) : ServerState :=
  { s with tags := s.tags.filter (fun tag => decide (tag.userId ≠ id)) }

/-- `userService.deleteUser`: not-found when the id is absent; otherwise runs
the three steps in the source's order — user record first, then the notes
filter, then the tags filter. -/
def deleteUser (s : ServerState) (id : String) : ServerState × StatusResponse :=
  match removeUserRecord s id with
  | none => (s, ⟨false, "User not found"⟩)
  | some s1 => (removeOwnedTags (removeOwnedNotes s1 id) id, ⟨true, "User deleted successfully"⟩)

/-- `getNotes` as dispatched by the gRPC server: the handler reads only the
`notes` array and the request — no token, no blacklist. -/
def getNotesDispatch (s : ServerState) (req : GetNotesRequest) : NotesResponse :=
  getNotes s.notes req

/-- `getTags` as dispatched by the gRPC server. -/
def getTagsDispatch (s : ServerState) (userId : String) : TagsResponse :=
  getTags s.tags userId

/-- `getUser` as dispatched by the gRPC server. -/
def getUserDispatch (s : ServerState) (id : String) : UserResponse :=
  getUser s.users id

/-- `createNote` as dispatched by the gRPC server. -/
def createNoteDispatch (s : ServerState) (req : CreateNoteRequest)
    (freshId : String) (now : Nat) : ServerState × NoteResponse :=
  let r := createNote s.notes req freshId now
  ({ s with notes := r.1 }, r.2)

/-- `createTag` as dispatched by the gRPC server. -/
def createTagDispatch (s : ServerState) (name userId : String)
    (freshId : String) (now : Nat) : ServerState × TagResponse :=
  let r := createTag s.tags name userId freshId now
  ({ s with tags := r.1 }, r.2)

/-- `deleteTag` as dispatched by the gRPC server. -/
def deleteTagDispatch (s : ServerState) (id userId : String) :
    ServerState × StatusResponse :=
  let r := deleteTag s.tags s.notes id userId
  ({ s with tags := r.1, notes := r.2.1 }, r.2.2)

/-- `getNote` as dispatched by the gRPC server. -/
def getNoteDispatch (s : ServerState) (id userId : String) : NoteResponse :=
  getNote s.notes id userId

/-- `updateNote` as dispatched by the gRPC server. -/
def updateNoteDispatch (s : ServerState) (req : UpdateNoteRequest) (now : Nat) :
    ServerState × NoteResponse :=
  let r := updateNote s.notes req now
  ({ s with notes := r.1 }, r.2)

/-- `deleteNote` as dispatched by the gRPC server. -/
def deleteNoteDispatch (s : ServerState) (id userId : String) :
    ServerState × StatusResponse :=
  let r := deleteNote s.notes id userId
  ({ s with notes := r.1 }, r.2)

/-- `getTag` as dispatched by the gRPC server. -/
def getTagDispatch (s : ServerState) (id userId : String) : TagResponse :=
  getTag s.tags id userId

/-- `updateTag` as dispatched by the gRPC server. -/
def updateTagDispatch (s : ServerState) (id : String) (name : Option String)
    (userId : String) (now : Nat) : ServerState × TagResponse :=
  let r := updateTag s.tags id name userId now
  ({ s with tags := r.1 }, r.2)

/-- `updateUser` as dispatched by the gRPC server. -/
def updateUserDispatch (s : ServerState) (h : Hasher) (id : String)
    (username password : Option String) : ServerState × UserResponse :=
  let r := updateUser s.users h id username password
  ({ s with users := r.1 }, r.2)

/-! ### Helper lemmas about the list operations -/

theorem removeFirst_eq_some_iff (p : α → Bool) :
    ∀ xs ys : List α, removeFirst p xs = some ys ↔
      ∃ l t r, xs = l ++ t :: r ∧ (∀ a ∈ l, p a = false) ∧ p t = true ∧ ys = l ++ r := by
  intro xs
  induction xs with
  | nil =>
    intro ys
    constructor
    · intro h; simp [removeFirst] at h
    · rintro ⟨l, t, r, h, -, -, -⟩
      cases l <;> simp at h
  | cons x xs ih =>
    intro ys
    cases hpx : p x with
    | true =>
      simp only [removeFirst, hpx, if_pos]
      constructor
      · intro h
        exact ⟨[], x, xs, rfl, by simp, hpx, by simpa using h.symm⟩
      · rintro ⟨l, t, r, hxs, hl, ht, hys⟩
        cases l with
        | nil =>
          simp only [List.nil_append, List.cons.injEq] at hxs
          simp [hys, hxs.2]
        | cons a l' =>
          simp only [List.cons_append, List.cons.injEq] at hxs
          have := hl a (by simp)
          simp [← hxs.1, hpx] at this
    | false =>
      simp only [removeFirst, hpx, if_neg, Bool.false_eq_true, not_false_iff]
      constructor
      · intro h
        cases hrec : removeFirst p xs with
        | none => rw [hrec] at h; cases h
        | some ys' =>
          rw [hrec] at h
          obtain ⟨l, t, r, hxs, hl, ht, hys'⟩ := (ih ys').mp hrec
          refine ⟨x :: l, t, r, by simp [hxs], ?_, ht, ?_⟩
          · intro a ha
            rcases List.mem_cons.mp ha with h' | h'
            · rw [h']; exact hpx
            · exact hl a h'
          · cases h
            simp [hys']
      · rintro ⟨l, t, r, hxs, hl, ht, hys⟩
        cases l with
        | nil =>
          simp only [List.nil_append, List.cons.injEq] at hxs
          simp [← hxs.1, hpx] at ht
        | cons a l' =>
          simp only [List.cons_append, List.cons.injEq] at hxs
          obtain ⟨hax, hxs'⟩ := hxs
          have hrec : removeFirst p xs = some (l' ++ r) :=
            (ih (l' ++ r)).mpr ⟨l', t, r, hxs', fun b hb => hl b (by simp [hb]), ht, rfl⟩
          rw [hrec, hys, hax]
          simp

theorem updateFirst_eq_some_iff (p : α → Bool) (f : α → α) :
    ∀ (xs : List α) (y : α) (ys : List α), updateFirst p f xs = some (y, ys) ↔
      ∃ l t r, xs = l ++ t :: r ∧ (∀ a ∈ l, p a = false) ∧ p t = true ∧
        y = f t ∧ ys = l ++ f t :: r := by
  intro xs
  induction xs with
  | nil =>
    intro y ys
    constructor
    · intro h; simp [updateFirst] at h
    · rintro ⟨l, t, r, h, -, -, -, -⟩
      cases l <;> simp at h
  | cons x xs ih =>
    intro y ys
    cases hpx : p x with
    | true =>
      simp only [updateFirst, hpx, if_pos]
      constructor
      · intro h
        obtain ⟨h1, h2⟩ := Prod.mk.injEq .. ▸ Option.some.injEq .. ▸ h
        exact ⟨[], x, xs, rfl, by simp, hpx, by simp_all, by simp_all⟩
      · rintro ⟨l, t, r, hxs, hl, ht, hy, hys⟩
        cases l with
        | nil =>
          simp only [List.nil_append, List.cons.injEq] at hxs
          simp [hy, hys, hxs.1, hxs.2]
        | cons a l' =>
          simp only [List.cons_append, List.cons.injEq] at hxs
          have := hl a (by simp)
          simp [← hxs.1, hpx] at this
    | false =>
      simp only [updateFirst, hpx, if_neg, Bool.false_eq_true, not_false_iff]
      constructor
      · intro h
        cases hrec : updateFirst p f xs with
        | none => rw [hrec] at h; cases h
        | some pr =>
          rw [hrec] at h
          obtain ⟨l, t, r, hxs, hl, ht, hy, hys'⟩ := (ih pr.1 pr.2).mp (by rw [hrec])
          refine ⟨x :: l, t, r, by simp [hxs], ?_, ht, ?_, ?_⟩
          · intro a ha
            rcases List.mem_cons.mp ha with h' | h'
            · rw [h']; exact hpx
            · exact hl a h'
          · cases h; exact hy
          · cases h; simp [hys']
      · rintro ⟨l, t, r, hxs, hl, ht, hy, hys⟩
        cases l with
        | nil =>
          simp only [List.nil_append, List.cons.injEq] at hxs
          simp [← hxs.1, hpx] at ht
        | cons a l' =>
          simp only [List.cons_append, List.cons.injEq] at hxs
          obtain ⟨hax, hxs'⟩ := hxs
          have hrec : updateFirst p f xs = some (f t, l' ++ f t :: r) :=
            (ih (f t) (l' ++ f t :: r)).mpr
              ⟨l', t, r, hxs', fun b hb => hl b (by simp [hb]), ht, rfl, rfl⟩
          rw [hrec, hy, hys, hax]
          simp

theorem find?_append_of_forall_false (p : α → Bool) (l₁ l₂ : List α)
    (h : ∀ a ∈ l₁, p a = false) : (l₁ ++ l₂).find? p = l₂.find? p := by
  induction l₁ with
  | nil => simp
  | cons a l₁ ih =>
    have ha := h a (by simp)
    rw [List.cons_append, List.find?_cons, ha]
    exact ih (fun b hb => h b (by simp [hb]))

/-- A tampered token: it decodes to a payload with a future expiry, but its
signature does not verify under the process secret. -/
def tamperedToken : Token := ⟨some ⟨"u1", "alice", some 100⟩, false⟩

/-- A well-formed token with a decodable expiry and a valid signature. -/
def sampleToken : Token := ⟨some ⟨"u2", "bob", some 500⟩, true⟩

/-! ### Claim theorems -/

/-- Claim C8: `cleanBlacklist` (the `purgeExpired` of the spec) keeps exactly
the revocation entries whose `expiresAt` is strictly greater than `now`: an
entry survives iff it was present and not yet expired, and nothing is added
or reordered (the result is a sublist of the input). -/
theorem cleanBlacklist_purges_exactly_expired
    (tokenBlacklist : List BlacklistEntry) (now : Nat) :
    (∀ e, e ∈ cleanBlacklist tokenBlacklist now ↔
      e ∈ tokenBlacklist ∧ now < e.expiresAt) ∧
    List.Sublist (cleanBlacklist tokenBlacklist now) tokenBlacklist := by
  refine ⟨fun e => ?_, List.filter_sublist _⟩
  simp [cleanBlacklist, List.mem_filter]

/-- Claim C4, counterexample: for the tampered token (signature does not
verify), `verifyToken` answers differently in two runs that differ only in
the revocation set — revoked-message when the token is blacklisted, generic
invalid-message when it is not — so a tampered token's result is NOT
independent of the revocation set, and the signature is not checked first. -/
theorem verifyToken_tampered_leaks_revocation :
    tamperedToken.sigOk = false ∧
    verifyToken [⟨tamperedToken, 100⟩] tamperedToken 50 ≠
      verifyToken [] tamperedToken 50 := by
  decide

/-- Claim C4 (amended): `verifyToken` checks revocation-set membership before
the signature, so for every token whose signature does not verify the result
is the revoked failure when the token is in the revocation set and the
generic invalid failure otherwise — the outcome for a tampered token depends
on (and leaks) revocation-set membership. -/
theorem verifyToken_tampered_result (tokenBlacklist : List BlacklistEntry)
    (t : Token) (now : Nat) (h : t.sigOk = false) :
    verifyToken tokenBlacklist t now =
      if tokenBlacklist.any (fun item => decide (item.token = t)) then
        VerifyResult.invalid "Token has been revoked"
      else VerifyResult.invalid "Invalid token" := by
  have hjwt : jwtVerify t now = none := by
    unfold jwtVerify
    cases hd : t.decoded with
    | none => rfl
    | some p => simp [h]
  unfold verifyToken
  rw [hjwt]

/-- Witness for `verifyToken_tampered_result` at a concrete tampered token and
revocation set. -/
theorem verifyToken_tampered_result_witness :
    tamperedToken.sigOk = false ∧
    verifyToken [⟨tamperedToken, 100⟩] tamperedToken 50 =
      (if [BlacklistEntry.mk tamperedToken 100].any
          (fun item => decide (item.token = tamperedToken)) then
        VerifyResult.invalid "Token has been revoked"
      else VerifyResult.invalid "Invalid token") :=
  ⟨by decide, verifyToken_tampered_result [⟨tamperedToken, 100⟩] tamperedToken 50 (by decide)⟩

/-- Claim C7: for every token whose decoded payload carries a (truthy) expiry
`e`, `logout` (the spec's `revoke`) succeeds — regardless of the signature,
which it never inspects — and appends `{token, e}` to the revocation set,
after which `verifyToken` on that token answers the revoked failure at every
instant, in particular before the token's natural expiry; a token with no
decoded payload, or whose payload has no expiry, is rejected and the
revocation set is unchanged. -/
theorem logout_then_verify_revoked (tokenBlacklist : List BlacklistEntry) (t : Token) :
    (∀ p e, t.decoded = some p → p.exp = some e → e ≠ 0 →
      logout tokenBlacklist t =
        (tokenBlacklist ++ [⟨t, e⟩], ⟨true, "Logout successful"⟩) ∧
      ∀ now, verifyToken (tokenBlacklist ++ [⟨t, e⟩]) t now =
        .invalid "Token has been revoked") ∧
    (t.decoded = none →
      logout tokenBlacklist t = (tokenBlacklist, ⟨false, "Invalid token"⟩)) ∧
    (∀ p, t.decoded = some p → p.exp = none →
      logout tokenBlacklist t = (tokenBlacklist, ⟨false, "Invalid token"⟩)) := by
  refine ⟨fun p e hd he h0 => ⟨?_, fun now => ?_⟩, fun hd => ?_, fun p hd he => ?_⟩
  · simp [logout, hd, he, h0]
  · have hmem : (tokenBlacklist ++ [BlacklistEntry.mk t e]).any
        (fun item => decide (item.token = t)) = true := by
      simp [List.any_append]
    unfold verifyToken
    rw [hmem]
    simp
  · simp [logout, hd]
  · simp [logout, hd, he]

/-- Witness for `logout_then_verify_revoked`: a concrete unexpired token is
revoked from the empty revocation set and then fails verification with the
revoked message at instant 10, well before its expiry 500. -/
theorem logout_then_verify_revoked_witness :
    logout [] sampleToken = ([⟨sampleToken, 500⟩], ⟨true, "Logout successful"⟩) ∧
    verifyToken [⟨sampleToken, 500⟩] sampleToken 10 =
      .invalid "Token has been revoked" := by
  have h := (logout_then_verify_revoked [] sampleToken).1
    ⟨"u2", "bob", some 500⟩ 500 rfl rfl (by decide)
  exact ⟨h.1, h.2 10⟩

/-- A concrete instance of the external `bcrypt` collaborator, used to
evaluate the auth operations on closed inputs: it satisfies bcrypt's
round-trip contract `compare pw (hash pw) = true`. -/
def sampleHasher : Hasher :=
  ⟨fun password => "hashed:" ++ password,
   fun password digest => decide (digest = "hashed:" ++ password)⟩

/-- Claim C5, counterexample: `register` accepts the empty username — on an
empty user collection, registering username `""` succeeds and returns a user
view with that empty username, so success does NOT require a non-empty
username. -/
theorem register_accepts_empty_username :
    (register [] sampleHasher "id1" "" "pw").2.success = true ∧
    (register [] sampleHasher "id1" "" "pw").2.user = some ⟨"id1", ""⟩ := by
  constructor <;> rfl

/-- Claim C5 (amended): `register` succeeds iff no existing user has exactly
the requested username (case-sensitive string equality; emptiness is not
checked).  On a duplicate it fails with the duplicate-username message and
leaves the collection unchanged; on success it appends the new record with
the hashed password and returns a user view carrying only the id and
username — the `UserOut` type has no password field. -/
theorem register_success_iff (users : List User) (h : Hasher)
    (freshId username password : String) :
    ((register users h freshId username password).2.success = true ↔
      ∀ u ∈ users, u.username ≠ username) ∧
    ((∃ u ∈ users, u.username = username) →
      register users h freshId username password =
        (users, ⟨false, "Username already exists", none⟩)) ∧
    ((∀ u ∈ users, u.username ≠ username) →
      register users h freshId username password =
        (users ++ [⟨freshId, username, h.hash password⟩],
         ⟨true, "User registered successfully", some ⟨freshId, username⟩⟩)) := by
  cases hany : users.any (fun user => decide (user.username = username)) with
  | true =>
    have hex : ∃ u ∈ users, u.username = username := by
      simpa using hany
    have hreg : register users h freshId username password =
        (users, ⟨false, "Username already exists", none⟩) := by
      simp [register, hany]
    refine ⟨?_, fun _ => hreg, fun hall => ?_⟩
    · rw [hreg]
      simp only [Bool.false_eq_true, false_iff, not_forall]
      obtain ⟨u, hu, he⟩ := hex
      exact ⟨u, hu, fun hne => hne he⟩
    · obtain ⟨u, hu, he⟩ := hex
      exact absurd he (hall u hu)
  | false =>
    have hall : ∀ u ∈ users, u.username ≠ username := by
      simpa using hany
    have hreg : register users h freshId username password =
        (users ++ [⟨freshId, username, h.hash password⟩],
         ⟨true, "User registered successfully", some ⟨freshId, username⟩⟩) := by
      simp [register, hany]
    refine ⟨?_, fun hex => ?_, fun _ => hreg⟩
    · rw [hreg]
      simpa using hall
    · obtain ⟨u, hu, he⟩ := hex
      exact absurd he (hall u hu)

/-- Witness for `register_success_iff` at a fresh username on an empty user
collection. -/
theorem register_success_iff_witness :
    (∀ u ∈ ([] : List User), u.username ≠ "dave") ∧
    register [] sampleHasher "id7" "dave" "pw" =
      ([⟨"id7", "dave", sampleHasher.hash "pw"⟩],
       ⟨true, "User registered successfully", some ⟨"id7", "dave"⟩⟩) := by
  refine ⟨by simp, ?_⟩
  exact (register_success_iff [] sampleHasher "id7" "dave" "pw").2.2 (by simp)

/-- Claim C6: whenever `register` succeeds and the hasher satisfies bcrypt's
round-trip contract for the registered password, `login` with the same
credentials on the resulting user collection succeeds and returns the very
user view (same id) that `register` returned. -/
theorem login_after_register (users : List User) (h : Hasher)
    (freshId username password : String)
    (hsucc : (register users h freshId username password).2.success = true)
    (hrt : h.compare password (h.hash password) = true) :
    login (register users h freshId username password).1 h username password =
      ⟨true, "Login successful", some ⟨freshId, username⟩⟩ ∧
    (register users h freshId username password).2.user =
      some ⟨freshId, username⟩ := by
  cases hany : users.any (fun user => decide (user.username = username)) with
  | true => simp [register, hany] at hsucc
  | false =>
    have hall' : ∀ u ∈ users, u.username ≠ username := by
      simpa using hany
    have hall : ∀ a ∈ users, (fun user => decide (user.username = username)) a = false := by
      intro a ha
      simpa using hall' a ha
    have hfind : ((users ++ [User.mk freshId username (h.hash password)]).find?
        (fun user => decide (user.username = username))) =
        some (User.mk freshId username (h.hash password)) := by
      rw [find?_append_of_forall_false _ _ _ hall]
      simp
    have hreg1 : (register users h freshId username password).1 =
        users ++ [User.mk freshId username (h.hash password)] := by
      simp [register, hany]
    constructor
    · rw [hreg1]
      unfold login
      rw [hfind]
      simp [hrt]
    · simp [register, hany]

/-- Witness for `login_after_register`: a concrete registration on an empty
collection followed by a successful login with the same credentials. -/
theorem login_after_register_witness :
    (register [] sampleHasher "id9" "carol" "pw1").2.success = true ∧
    sampleHasher.compare "pw1" (sampleHasher.hash "pw1") = true ∧
    login (register [] sampleHasher "id9" "carol" "pw1").1 sampleHasher "carol" "pw1" =
      ⟨true, "Login successful", some ⟨"id9", "carol"⟩⟩ := by
  refine ⟨rfl, by decide, ?_⟩
  exact (login_after_register [] sampleHasher "id9" "carol" "pw1" rfl (by decide)).1

/-- Note used by the update-note scenario. -/
def demoNote : Note := ⟨"n1", "old-title", "old-content", [], "A", 5, 5, false, "#ffffff"⟩

/-- Title-only update request for `demoNote` (all other fields left
`undefined`). -/
def demoUpdateReq : UpdateNoteRequest := ⟨"n1", some "new-title", none, none, "A", none, none⟩

/-- Claim C9: when `updateNote` succeeds, the returned note is the first
stored note matching `(id, userId)` with every explicitly supplied field
replaced by the supplied value, every unsupplied field kept at its prior
value, `updatedAt` refreshed to `now`, and `id`, `userId`, `createdAt`
unchanged. -/
theorem updateNote_partial_fields (notes : List Note) (req : UpdateNoteRequest)
    (now : Nat) (notes' : List Note) (resp : NoteResponse)
    (heq : updateNote notes req now = (notes', resp))
    (hsucc : resp.success = true) :
    ∃ o un, resp.note = some un ∧ o ∈ notes ∧ o.id = req.id ∧ o.userId = req.userId ∧
      un.title = req.title.getD o.title ∧
      un.content = req.content.getD o.content ∧
      un.tagIds = req.tagIds.getD o.tagIds ∧
      un.archived = req.archived.getD o.archived ∧
      un.color = req.color.getD o.color ∧
      un.updatedAt = now ∧
      un.id = o.id ∧ un.userId = o.userId ∧ un.createdAt = o.createdAt := by
  unfold updateNote at heq
  cases hup : updateFirst (fun note => decide (note.id = req.id ∧ note.userId = req.userId))
      (applyNoteUpdate req now) notes with
  | none =>
    rw [hup] at heq
    cases heq
    simp at hsucc
  | some pr =>
    obtain ⟨u, ns⟩ := pr
    rw [hup] at heq
    obtain ⟨l, t, r, hxs, -, ht, hy, -⟩ :=
      (updateFirst_eq_some_iff _ _ notes u ns).mp hup
    have htm : t.id = req.id ∧ t.userId = req.userId := of_decide_eq_true ht
    cases heq
    exact ⟨t, applyNoteUpdate req now t, by rw [hy],
      hxs ▸ List.mem_append.mpr (Or.inr (List.mem_cons_self t r)),
      htm.1, htm.2, rfl, rfl, rfl, rfl, rfl, rfl, rfl, rfl, rfl⟩

/-- Witness for `updateNote_partial_fields`: a concrete title-only update. -/
theorem updateNote_partial_fields_witness :
    (updateNote [demoNote] demoUpdateReq 9).2.success = true ∧
    ∃ o un, (updateNote [demoNote] demoUpdateReq 9).2.note = some un ∧
      o ∈ [demoNote] ∧ o.id = demoUpdateReq.id ∧ o.userId = demoUpdateReq.userId ∧
      un.title = demoUpdateReq.title.getD o.title ∧
      un.content = demoUpdateReq.content.getD o.content ∧
      un.tagIds = demoUpdateReq.tagIds.getD o.tagIds ∧
      un.archived = demoUpdateReq.archived.getD o.archived ∧
      un.color = demoUpdateReq.color.getD o.color ∧
      un.updatedAt = 9 ∧
      un.id = o.id ∧ un.userId = o.userId ∧ un.createdAt = o.createdAt :=
  ⟨rfl, updateNote_partial_fields [demoNote] demoUpdateReq 9
    (updateNote [demoNote] demoUpdateReq 9).1 (updateNote [demoNote] demoUpdateReq 9).2
    rfl rfl⟩

/-- State for the user-deletion scenario: user A with one note and one tag. -/
def demoStateA : ServerState :=
  ⟨[⟨"A", "alice", "hA"⟩], [⟨"n1", "t", "c", [], "A", 0, 0, false, "#ffffff"⟩],
   [⟨"t1", "work", "A", 0, 0⟩], []⟩

/-- Claim C3, counterexample: in the cascade of `deleteUser("A")`, the FIRST
step (`users.splice`) already removes the User record, producing an
intermediate state in which the user is absent while that user's Note and Tag
still exist — the User is removed first, not last. -/
theorem deleteUser_removes_user_before_dependents :
    (removeUserRecord demoStateA "A").isSome = true ∧
    ((removeUserRecord demoStateA "A").getD demoStateA).users = [] ∧
    ((removeUserRecord demoStateA "A").getD demoStateA).notes.any
      (fun n => decide (n.userId = "A")) = true ∧
    ((removeUserRecord demoStateA "A").getD demoStateA).tags.any
      (fun t => decide (t.userId = "A")) = true := by
  refine ⟨rfl, by decide, rfl, rfl⟩

/-- Claim C3 (amended): `deleteUser(userId)` runs its steps in the opposite
order to the claim — it removes the User record FIRST (the intermediate state
right after that step still holds all of the user's Notes and Tags), then
filters out the user's Notes, then the user's Tags.  The final state is as
claimed: the user's record, notes and tags are all gone, and every entity of
every other user is untouched. -/
theorem deleteUser_cascade (s : ServerState) (id : String) (s' : ServerState)
    (r : StatusResponse) (heq : deleteUser s id = (s', r))
    (hsucc : r.success = true) :
    (∃ l u rr, s.users = l ++ u :: rr ∧ u.id = id ∧ (∀ v ∈ l, v.id ≠ id) ∧
      s'.users = l ++ rr) ∧
    (∀ n ∈ s'.notes, n.userId ≠ id) ∧ (∀ t ∈ s'.tags, t.userId ≠ id) ∧
    (∀ n ∈ s.notes, n.userId ≠ id → n ∈ s'.notes) ∧
    (∀ t ∈ s.tags, t.userId ≠ id → t ∈ s'.tags) ∧
    (∀ n ∈ s'.notes, n ∈ s.notes) ∧ (∀ t ∈ s'.tags, t ∈ s.tags) ∧
    (∃ s1, removeUserRecord s id = some s1 ∧ s1.notes = s.notes ∧ s1.tags = s.tags ∧
      s' = removeOwnedTags (removeOwnedNotes s1 id) id) := by
  unfold deleteUser at heq
  cases hrm : removeUserRecord s id with
  | none =>
    rw [hrm] at heq
    cases heq
    simp at hsucc
  | some s1 =>
    rw [hrm] at heq
    cases heq
    have hus : ∃ us, removeFirst (fun user => decide (user.id = id)) s.users = some us ∧
        s1 = { s with users := us } := by
      unfold removeUserRecord at hrm
      cases hrf : removeFirst (fun user => decide (user.id = id)) s.users with
      | none => rw [hrf] at hrm; cases hrm
      | some us =>
        rw [hrf] at hrm
        cases hrm
        exact ⟨us, rfl, rfl⟩
    obtain ⟨us, hrf, hs1⟩ := hus
    obtain ⟨l, u, rr, hxs, hl, hu, hys⟩ :=
      (removeFirst_eq_some_iff _ s.users us).mp hrf
    refine ⟨⟨l, u, rr, hxs, of_decide_eq_true hu, fun v hv => ?_, ?_⟩,
      fun n hn => ?_, fun t ht => ?_, fun n hn hne => ?_, fun t ht hne => ?_,
      fun n hn => ?_, fun t ht => ?_, s1, rfl, by rw [hs1], by rw [hs1], rfl⟩
    · simpa using hl v hv
    · rw [hs1]
      simpa using hys
    · have h := hn
      simp [removeOwnedTags, removeOwnedNotes, hs1] at h
      exact h.2
    · have h := ht
      simp [removeOwnedTags, removeOwnedNotes, hs1] at h
      exact h.2
    · simp [removeOwnedTags, removeOwnedNotes, hs1]
      exact ⟨hn, hne⟩
    · simp [removeOwnedTags, removeOwnedNotes, hs1]
      exact ⟨ht, hne⟩
    · have h := hn
      simp [removeOwnedTags, removeOwnedNotes, hs1] at h
      exact h.1
    · have h := ht
      simp [removeOwnedTags, removeOwnedNotes, hs1] at h
      exact h.1

/-- Witness for `deleteUser_cascade` on the one-user, one-note, one-tag
state. -/
theorem deleteUser_cascade_witness :
    (deleteUser demoStateA "A").2.success = true ∧
    ((∃ l u rr, demoStateA.users = l ++ u :: rr ∧ u.id = "A" ∧
        (∀ v ∈ l, v.id ≠ "A") ∧ (deleteUser demoStateA "A").1.users = l ++ rr) ∧
      (∀ n ∈ (deleteUser demoStateA "A").1.notes, n.userId ≠ "A") ∧
      (∀ t ∈ (deleteUser demoStateA "A").1.tags, t.userId ≠ "A") ∧
      (∀ n ∈ demoStateA.notes, n.userId ≠ "A" → n ∈ (deleteUser demoStateA "A").1.notes) ∧
      (∀ t ∈ demoStateA.tags, t.userId ≠ "A" → t ∈ (deleteUser demoStateA "A").1.tags) ∧
      (∀ n ∈ (deleteUser demoStateA "A").1.notes, n ∈ demoStateA.notes) ∧
      (∀ t ∈ (deleteUser demoStateA "A").1.tags, t ∈ demoStateA.tags) ∧
      (∃ s1, removeUserRecord demoStateA "A" = some s1 ∧ s1.notes = demoStateA.notes ∧
        s1.tags = demoStateA.tags ∧
        (deleteUser demoStateA "A").1 = removeOwnedTags (removeOwnedNotes s1 "A") "A")) :=
  ⟨rfl, deleteUser_cascade demoStateA "A" (deleteUser demoStateA "A").1
    (deleteUser demoStateA "A").2 rfl rfl⟩

/-- Claim C10: `createNote` and `createTag` perform no referential check on
the supplied owner id — even in a state whose user collection contains no
user with that id, both succeed, append an entity carrying exactly that
owner id, and leave the user collection untouched. -/
theorem create_ignores_user_existence (s : ServerState) (reqN : CreateNoteRequest)
    (tagName tagUserId freshN freshT : String) (nowN nowT : Nat)
    (_hN : ∀ u ∈ s.users, u.id ≠ reqN.userId)
    (_hT : ∀ u ∈ s.users, u.id ≠ tagUserId) :
    ((createNoteDispatch s reqN freshN nowN).2.success = true ∧
      ∃ n, (createNoteDispatch s reqN freshN nowN).2.note = some n ∧
        n.userId = reqN.userId ∧
        (createNoteDispatch s reqN freshN nowN).1.notes = s.notes ++ [n] ∧
        (createNoteDispatch s reqN freshN nowN).1.users = s.users) ∧
    ((createTagDispatch s tagName tagUserId freshT nowT).2.success = true ∧
      ∃ t, (createTagDispatch s tagName tagUserId freshT nowT).2.tag = some t ∧
        t.userId = tagUserId ∧
        (createTagDispatch s tagName tagUserId freshT nowT).1.tags = s.tags ++ [t] ∧
        (createTagDispatch s tagName tagUserId freshT nowT).1.users = s.users) :=
  ⟨⟨rfl, _, rfl, rfl, rfl, rfl⟩, ⟨rfl, _, rfl, rfl, rfl, rfl⟩⟩

/-- Witness for `create_ignores_user_existence`: creating a note and a tag for
owner `"ghost"` in a state with an EMPTY user collection. -/
theorem create_ignores_user_existence_witness :
    (∀ u ∈ (⟨[], [], [], []⟩ : ServerState).users, u.id ≠ "ghost") ∧
    ((createNoteDispatch ⟨[], [], [], []⟩ ⟨none, none, none, "ghost", none⟩ "n1" 3).2.success = true ∧
      ∃ n, (createNoteDispatch ⟨[], [], [], []⟩ ⟨none, none, none, "ghost", none⟩ "n1" 3).2.note = some n ∧
        n.userId = "ghost" ∧
        (createNoteDispatch ⟨[], [], [], []⟩ ⟨none, none, none, "ghost", none⟩ "n1" 3).1.notes =
          (⟨[], [], [], []⟩ : ServerState).notes ++ [n] ∧
        (createNoteDispatch ⟨[], [], [], []⟩ ⟨none, none, none, "ghost", none⟩ "n1" 3).1.users =
          (⟨[], [], [], []⟩ : ServerState).users) ∧
    ((createTagDispatch ⟨[], [], [], []⟩ "chores" "ghost" "t9" 3).2.success = true ∧
      ∃ t, (createTagDispatch ⟨[], [], [], []⟩ "chores" "ghost" "t9" 3).2.tag = some t ∧
        t.userId = "ghost" ∧
        (createTagDispatch ⟨[], [], [], []⟩ "chores" "ghost" "t9" 3).1.tags =
          (⟨[], [], [], []⟩ : ServerState).tags ++ [t] ∧
        (createTagDispatch ⟨[], [], [], []⟩ "chores" "ghost" "t9" 3).1.users =
          (⟨[], [], [], []⟩ : ServerState).users) :=
  ⟨by simp, create_ignores_user_existence ⟨[], [], [], []⟩ ⟨none, none, none, "ghost", none⟩
    "chores" "ghost" "n1" "t9" 3 3 (by simp) (by simp)⟩

/-- State with one note but no registered users and an empty revocation set:
no credential was ever issued, so no token could verify against it. -/
def noUserState : ServerState :=
  ⟨[], [⟨"n1", "t", "c", [], "A", 0, 0, false, "#ffffff"⟩], [], []⟩

/-- Claim C1, counterexample: the note-listing call is dispatched without any
token resolution — its request message (`GetNotesRequest`, which per
`proto/keep.proto` carries only `userId`/`archived`/`tagId` and no token
field) is served with success and the data even in a state with no users and
an empty revocation set, where no token that verifies as valid can exist. -/
theorem getNotes_dispatched_without_token :
    noUserState.users = [] ∧ noUserState.tokenBlacklist = [] ∧
    (getNotesDispatch noUserState ⟨"A", none, ""⟩).success = true ∧
    (getNotesDispatch noUserState ⟨"A", none, ""⟩).notes =
      [⟨"n1", "t", "c", [], "A", 0, 0, false, "#ffffff"⟩] :=
  ⟨rfl, rfl, rfl, by decide⟩

/-- Claim C1 (amended): every one of the thirteen note, tag and user handlers
of the gRPC service — getNotes, getNote, createNote, updateNote, deleteNote,
getTags, getTag, createTag, updateTag, deleteTag, getUser, updateUser,
deleteUser — is dispatched without resolving any bearer token: `verifyToken`
is never on their path, and each handler's response and state effect are
identical under an arbitrary replacement of the revocation set (for the
mutating handlers the resulting state is the same except that the replaced
revocation set rides along untouched), so a call presenting no token, or no
valid token, is dispatched all the same.  The two list reads and the two
creations (getNotes, getTags, createNote, createTag) additionally always
answer success.  Only registration, login, and logout touch tokens. -/
theorem handlers_ignore_tokens (s : ServerState) (bl : List BlacklistEntry)
    (h : Hasher) (reqG : GetNotesRequest) (reqC : CreateNoteRequest)
    (reqU : UpdateNoteRequest) (freshId : String) (now : Nat)
    (nid nuid : String) (tagName tid tuid : String) (tname : Option String)
    (uid : String) (uname upass : Option String) :
    getNotesDispatch { s with tokenBlacklist := bl } reqG = getNotesDispatch s reqG ∧
    (getNotesDispatch s reqG).success = true ∧
    getNoteDispatch { s with tokenBlacklist := bl } nid nuid =
      getNoteDispatch s nid nuid ∧
    createNoteDispatch { s with tokenBlacklist := bl } reqC freshId now =
      ({ (createNoteDispatch s reqC freshId now).1 with tokenBlacklist := bl },
       (createNoteDispatch s reqC freshId now).2) ∧
    (createNoteDispatch s reqC freshId now).2.success = true ∧
    updateNoteDispatch { s with tokenBlacklist := bl } reqU now =
      ({ (updateNoteDispatch s reqU now).1 with tokenBlacklist := bl },
       (updateNoteDispatch s reqU now).2) ∧
    deleteNoteDispatch { s with tokenBlacklist := bl } nid nuid =
      ({ (deleteNoteDispatch s nid nuid).1 with tokenBlacklist := bl },
       (deleteNoteDispatch s nid nuid).2) ∧
    getTagsDispatch { s with tokenBlacklist := bl } tuid = getTagsDispatch s tuid ∧
    (getTagsDispatch s tuid).success = true ∧
    getTagDispatch { s with tokenBlacklist := bl } tid tuid =
      getTagDispatch s tid tuid ∧
    createTagDispatch { s with tokenBlacklist := bl } tagName tuid freshId now =
      ({ (createTagDispatch s tagName tuid freshId now).1 with tokenBlacklist := bl },
       (createTagDispatch s tagName tuid freshId now).2) ∧
    (createTagDispatch s tagName tuid freshId now).2.success = true ∧
    updateTagDispatch { s with tokenBlacklist := bl } tid tname tuid now =
      ({ (updateTagDispatch s tid tname tuid now).1 with tokenBlacklist := bl },
       (updateTagDispatch s tid tname tuid now).2) ∧
    deleteTagDispatch { s with tokenBlacklist := bl } tid tuid =
      ({ (deleteTagDispatch s tid tuid).1 with tokenBlacklist := bl },
       (deleteTagDispatch s tid tuid).2) ∧
    getUserDispatch { s with tokenBlacklist := bl } uid = getUserDispatch s uid ∧
    updateUserDispatch { s with tokenBlacklist := bl } h uid uname upass =
      ({ (updateUserDispatch s h uid uname upass).1 with tokenBlacklist := bl },
       (updateUserDispatch s h uid uname upass).2) ∧
    deleteUser { s with tokenBlacklist := bl } uid =
      ({ (deleteUser s uid).1 with tokenBlacklist := bl },
       (deleteUser s uid).2) := by
  refine ⟨rfl, rfl, rfl, rfl, rfl, rfl, rfl, rfl, rfl, rfl, rfl, rfl, rfl, rfl, rfl, rfl, ?_⟩
  cases hrf : removeFirst (fun user => decide (user.id = uid)) s.users with
  | none => simp [deleteUser, removeUserRecord, hrf]
  | some us => simp [deleteUser, removeUserRecord, hrf, removeOwnedNotes, removeOwnedTags]

end KeepClone
